import Mathlib

/-!
Verification of the input-normalization and price-parsing layer of the
`steam_community_market` client library.

The Lean definitions below are a shallow embedding of the Python source:

* `currencies.py` — the `SteamCurrency` / `SteamLegacyCurrency` enumeration
  tables;
* `decorators.py` — the per-argument sanitizers (`_sanitize_currency_value`,
  `_sanitize_market_hash_name_value`, `_sanitize_price_type_value`, ...), the
  runtime type checker (`_typecheck_value`) and the `@sanitized` /
  `@typechecked` decorator pipeline;
* `market.py` — the `Market` facade (`get_overview`, `get_overviews`,
  `get_overviews_from_dict`, `get_price`, `_get_price`,
  `_overview_type_converter`, `_price_to_float`).

Python values flowing through the decorators are embedded as the inductive
`PyVal`; exceptions are embedded as `Except PyErr`.  The transport
collaborator (`requests.py`, not part of the verified sources) is a parameter
`ReqFun` returning the overview or absence, following its specified
interface.
-/

namespace SteamMarket

/-- The `SteamCurrency` enumeration table from `currencies.py`:
canonical (name, numeric code) pairs, in source order. -/
def steamCurrencyNames : List (String × Int) :=
  [("USD", 1), ("GBP", 2), ("EUR", 3), ("CHF", 4), ("RUB", 5), ("PLN", 6),
   ("BRL", 7), ("JPY", 8), ("NOK", 9), ("IDR", 10), ("MYR", 11), ("PHP", 12),
   ("SGD", 13), ("THB", 14), ("VND", 15), ("KRW", 16), ("TRY", 17),
   ("UAH", 18), ("MXN", 19), ("CAD", 20), ("AUD", 21), ("NZD", 22),
   ("CNY", 23), ("INR", 24), ("CLP", 25), ("PEN", 26), ("COP", 27),
   ("ZAR", 28), ("HKD", 29), ("TWD", 30), ("SAR", 31), ("AED", 32),
   ("SEK", 33), ("ARS", 34), ("ILS", 35), ("BYN", 36), ("KZT", 37),
   ("KWD", 38), ("QAR", 39), ("CRC", 40), ("UYU", 41), ("BGN", 42),
   ("HRK", 43), ("CZK", 44), ("DKK", 45), ("HUF", 46), ("RON", 47)]

/-- The `SteamLegacyCurrency` enumeration table from `currencies.py`. -/
def steamLegacyCurrencyNames : List (String × Int) :=
  [("SEK", 33), ("BYN", 36), ("BGN", 42), ("HRK", 43), ("CZK", 44),
   ("DKK", 45), ("HUF", 46), ("RON", 47)]

/-- The numeric codes of the active-currency enumeration. -/
def steamCurrencyCodes : List Int := steamCurrencyNames.map Prod.snd

/-- The numeric codes of the legacy-currency enumeration. -/
def legacyCurrencyCodes : List Int := steamLegacyCurrencyNames.map Prod.snd

/-- A member of the `SteamCurrency` enum: a numeric code present in the
currency table. -/
abbrev SteamCurrency := {n : Int // n ∈ steamCurrencyCodes}

/-- A member of the `SteamLegacyCurrency` enum: a numeric code present in the
legacy table. -/
abbrev SteamLegacyCurrency := {n : Int // n ∈ legacyCurrencyCodes}

/-- Uppercasing used for the case-insensitive name lookups (kernel-reducible
counterpart of `str.upper()`; the table names are plain ASCII). -/
def upperStr (s : String) : String := String.mk (s.data.map Char.toUpper)

/-- Modelled from the spec: the enumerations' `lookup_by_code` (the
`Currency(value)` enum constructor used by `_sanitize_currency_value`; the
enum-class helper itself is not among the provided sources).  Returns the
member with that numeric code, or `not found`. -/
def currencyFromCode (n : Int) : Option SteamCurrency :=
  if h : n ∈ steamCurrencyCodes then some ⟨n, h⟩ else none

/-- Modelled from the spec: `Currency.from_string`, a case-insensitive exact
name lookup in the currency table (`lookup_by_name`); the method body is not
among the provided sources. -/
def currencyFromString (s : String) : Option SteamCurrency :=
  match steamCurrencyNames.find? (fun p => p.1 == upperStr s) with
  | some p => currencyFromCode p.2
  | none => none

/-- Modelled from the spec: `LegacyCurrency.from_string`, a case-insensitive
exact name lookup in the legacy table; the method body is not among the
provided sources. -/
def legacyFromString (s : String) : Option SteamLegacyCurrency :=
  match steamLegacyCurrencyNames.find? (fun p => p.1 == upperStr s) with
  | some p => if h : p.2 ∈ legacyCurrencyCodes then some ⟨p.2, h⟩ else none
  | none => none

/-- The exceptions raised by the embedded code (`exceptions.py` itself is not
among the provided sources; the distinct kinds are all the embedding needs). -/
inductive PyErr
  | typeError
  | valueError
  | indexError
  | attributeError
  | legacyCurrencyError
  | invalidCurrencyError
  deriving DecidableEq, Repr

/-- The universe of Python runtime values passed through the decorators. -/
inductive PyVal
  | none
  | bool (b : Bool)
  | int (n : Int)
  | str (s : String)
  | cur (c : SteamCurrency)
  | legacy (c : SteamLegacyCurrency)
  | tuple (xs : List PyVal)
  | list (xs : List PyVal)
  | dict (entries : List (PyVal × PyVal))

/-- `_sanitize_currency_value` from `decorators.py`.

The arms mirror the Python `isinstance` dispatch:
* a `Currency` member is returned unchanged (the legacy check on this branch
  is `isinstance(value, LegacyCurrency)`, a class test, so a `Currency`
  member never triggers it);
* a `LegacyCurrency` member raises `LegacyCurrencyException`;
* a string is first looked up in the legacy table, then in the currency
  table;
* an integer (Python `bool` included, being an `int` subclass) is first
  value-checked against the legacy enum, then resolved through the currency
  enum constructor;
* any other value falls through every `isinstance` test and is returned
  unchanged (the trailing `return value`). -/
def sanitizeCurrencyValue : PyVal → Except PyErr PyVal
  | .cur c => .ok (.cur c)
  | .legacy _ => .error .legacyCurrencyError
  | .str s =>
      if (legacyFromString s).isSome then .error .legacyCurrencyError
      else
        match currencyFromString s with
        | some c => .ok (.cur c)
        | none => .error .invalidCurrencyError
  | .int n =>
      if n ∈ legacyCurrencyCodes then .error .legacyCurrencyError
      else
        match currencyFromCode n with
        | some c => .ok (.cur c)
        | none => .error .invalidCurrencyError
  | .bool b =>
      if (if b then (1 : Int) else 0) ∈ legacyCurrencyCodes then
        .error .legacyCurrencyError
      else
        match currencyFromCode (if b then (1 : Int) else 0) with
        | some c => .ok (.cur c)
        | none => .error .invalidCurrencyError
  | v => .ok v

/-- The numeric code an input resolves to, per shape: enum members resolve to
their own code, integers to themselves, strings through the two name tables
(legacy first, as the sanitizer checks it first). -/
def resolveStringCurrencyCode (s : String) : Option Int :=
  match legacyFromString s with
  | some c => some c.1
  | none => (currencyFromString s).map Subtype.val

/-! ### The price-string parser (`Market._price_to_float`)

The regex `(\d{1,3}(?:[.,]\d{3})*)(?:[.,](\d{2}))?` is embedded by a direct
matcher.  `re.search` returns the leftmost match; since the pattern starts
with `\d`, the match begins at the first digit of the string, where every
sub-pattern is greedy and the trailing parts are starred/optional, so the
match never backtracks: up to three leading digits, then maximal repetitions
of separator-plus-three-digits, then optionally separator-plus-two-digits. -/

/-- The separator class `[.,]` of the price regex. -/
def isSepChar (c : Char) : Bool := c == '.' || c == ','

/-- Splits off the maximal leading run of digits (the text `\d{1,3}` can
consume from; the leftover rejoins the remainder). -/
def takeLeadingDigits : List Char → List Char × List Char
  | [] => ([], [])
  | c :: cs =>
    if c.isDigit then
      (c :: (takeLeadingDigits cs).1, (takeLeadingDigits cs).2)
    else ([], c :: cs)

/-- The greedy star `(?:[.,]\d{3})*`: consumes maximal repetitions of a
separator followed by exactly three digits, returning the consumed prefix and
the remainder. -/
def starLoop : List Char → List Char × List Char
  | s :: a :: b :: c :: rest =>
    if isSepChar s && a.isDigit && b.isDigit && c.isDigit then
      (s :: a :: b :: c :: (starLoop rest).1, (starLoop rest).2)
    else ([], s :: a :: b :: c :: rest)
  | l => ([], l)

/-- The optional decimal group `(?:[.,](\d{2}))?`: the two captured cents
digits, when the remainder starts with a separator and two digits. -/
def decGroup : List Char → Option (Char × Char)
  | s :: a :: b :: _ =>
    if isSepChar s && a.isDigit && b.isDigit then some (a, b) else none
  | _ => none

/-- The whole pattern matched at a position starting on a digit: capture
group 1 (integer part with separators) and capture group 2 (cents). -/
def matchCore (cs : List Char) : List Char × Option (Char × Char) :=
  let p := takeLeadingDigits cs
  let g0 := p.1.take 3
  let rest := p.1.drop 3 ++ p.2
  let q := starLoop rest
  (g0 ++ q.1, decGroup q.2)

/-- `re.search`: try successive start positions; the pattern can only begin
on a digit, where it always succeeds. -/
def searchPrice : List Char → Option (List Char × Option (Char × Char))
  | [] => none
  | c :: cs => if c.isDigit then some (matchCore (c :: cs)) else searchPrice cs

/-- Numeric value of an ASCII digit. -/
def digitVal (c : Char) : Nat := c.toNat - 48

/-- Numeric value of a digit string (base 10). -/
def natOfDigits (l : List Char) : Nat := l.foldl (fun a c => 10 * a + digitVal c) 0

/-- The two capture groups of the regex on a string, or `none` when it has no
match (`_price_to_float`'s early `return None`). -/
def priceParts (s : String) : Option (List Char × Option (Char × Char)) :=
  searchPrice s.data

/-- `match[2] if match[2] is not None else "00"`, as a number of cents. -/
def priceCents : Option (Char × Char) → Nat
  | some (a, b) => 10 * digitVal a + digitVal b
  | none => 0

/-- `Market._price_to_float`: strip the separators out of capture group 1
(`.replace(",", "").replace(".", "")`) and append the cents, i.e. the exact
value `int(num_str) + cents/100`. -/
def priceToFloat (s : String) : Option ℚ :=
  (priceParts s).map fun p =>
    (natOfDigits (p.1.filter (fun c => !isSepChar c)) : ℚ) + (priceCents p.2 : ℚ) / 100

/-! ### The runtime type checker (`_typecheck_value`) -/

/-- Declared argument types, as used by the facade's annotations.  Unions are
embedded as nested binary unions. -/
inductive PyType
  | intT
  | strT
  | boolT
  | curT
  | legacyT
  | unionT (a b : PyType)
  | listT (t : PyType)
  | dictT (k v : PyType)

/-- The `origin is None` branch of `_typecheck_value`: a plain
`isinstance` test.  In Python `bool` and every `IntEnum` member are
instances of `int`. -/
def isInstance : PyVal → PyType → Bool
  | .int _, .intT => true
  | .bool _, .intT => true
  | .cur _, .intT => true
  | .legacy _, .intT => true
  | .bool _, .boolT => true
  | .str _, .strT => true
  | .cur _, .curT => true
  | .legacy _, .legacyT => true
  | _, _ => false

/-- `_typecheck_value`: unions succeed if any branch matches; parameterized
containers recursively check their elements (`_typecheck_list_value`,
`_typecheck_dict_value`); plain types use `isinstance`.  The recursion is
structural on the declared type. -/
def typecheckValue : PyVal → PyType → Bool
  | v, .unionT a b => typecheckValue v a || typecheckValue v b
  | v, .listT t =>
      match v with
      | .list xs => xs.all (fun x => typecheckValue x t)
      | _ => false
  | v, .dictT k w =>
      match v with
      | .dict es => es.all (fun e => typecheckValue e.1 k && typecheckValue e.2 w)
      | _ => false
  | v, t => isInstance v t

/-! ### The remaining sanitizers of `decorators.py` -/

/-- `str.replace("/", "-")` on a hash name: every slash becomes a dash. -/
def replaceSlash (s : String) : String :=
  String.mk (s.data.map (fun c => if c == '/' then '-' else c))

/-- `_sanitize_market_hash_name_value`.  A non-string argument would fault in
Python, but the decorator pipeline only reaches this sanitizer behind the
`str` type check; such values are left unchanged here. -/
def sanitizeMarketHashName : PyVal → PyVal
  | .str s => .str (replaceSlash s)
  | v => v

/-- `_sanitize_market_hash_names_value`: the per-item sanitizer mapped over
the list. -/
def sanitizeMarketHashNames : PyVal → PyVal
  | .list xs => .list (xs.map sanitizeMarketHashName)
  | v => v

/-- `int(value)` on the shapes the app-id sanitizer can meet (enum members
and booleans are integers in Python); other shapes are unreachable behind the
type checks and defaulted. -/
def pyToInt : PyVal → Int
  | .int n => n
  | .bool b => if b then 1 else 0
  | .cur c => c.1
  | .legacy c => c.1
  | _ => 0

/-- `_sanitize_app_id_value`: coerce a scalar, or each element of a list, to
a plain integer. -/
def sanitizeAppId : PyVal → PyVal
  | .list xs => .list (xs.map (fun x => .int (pyToInt x)))
  | v => .int (pyToInt v)

/-- The fixed set accepted by `_sanitize_price_type_value`. -/
def validPriceTypes : List String := ["lowest_price", "median_price"]

/-- `_sanitize_price_type_value`: a lone valid string becomes a one-element
tuple; a tuple of valid strings is returned unchanged; anything else raises
`ValueError` (or `TypeError` for a non-iterable, which cannot be iterated). -/
def sanitizePriceType : PyVal → Except PyErr PyVal
  | .str s =>
      if validPriceTypes.contains s then .ok (.tuple [.str s])
      else .error .valueError
  | .tuple xs =>
      if xs.all (fun x => match x with
        | .str s => validPriceTypes.contains s
        | _ => false) then .ok (.tuple xs)
      else .error .valueError
  | _ => .error .typeError

/-- The `@sanitized` wrapper's treatment of the optional `currency`
argument: sanitized only when the caller supplied it. -/
def sanitizeCurrencyOpt : Option PyVal → Except PyErr (Option PyVal)
  | some v => (sanitizeCurrencyValue v).map some
  | none => .ok none

/-! ### The `Market` facade (`market.py`)

The transport collaborator `_request_overview` lives in `requests.py`, which
is not among the verified sources.  Modelled from the spec: one operation
`(app_id, item_name, currency_code) -> PriceOverview | absent`; its
rate-limit and invalid-item exception signals are outside every claim below
and omitted from the model. -/

/-- A value in a price-overview dictionary (strings, the success flag, and
the converted numeric forms; `none` embeds Python's `None`). -/
inductive OvVal
  | s (v : String)
  | b (v : Bool)
  | q (v : ℚ)
  | i (v : Int)
  | none
  deriving DecidableEq, Repr

/-- A `PriceOverview`: the marketplace's response dictionary for one item. -/
abbrev Overview := List (String × OvVal)

/-- Dictionary lookup in an overview. -/
def ovLookup (ov : Overview) (k : String) : Option OvVal :=
  (ov.find? (fun e => e.1 == k)).map Prod.snd

/-- The transport collaborator's shape. -/
def ReqFun := Int → String → Int → Option Overview

/-- `int(value.replace(",", ""))` on a volume string: strip the commas, then
parse the (digit-only) remainder; a malformed remainder raises
`ValueError`. -/
def pyIntOfString (s : String) : Except PyErr Int :=
  let t := s.data.filter (fun c => !(c == ','))
  if t ≠ [] && t.all Char.isDigit then .ok (natOfDigits t) else .error .valueError

/-- The two price fields of an overview. -/
def priceKeys : List String := ["lowest_price", "median_price"]

/-- The keys `_overview_type_converter` may convert. -/
def validConvKeys : List String := ["lowest_price", "median_price", "volume"]

/-- One entry of `_overview_type_converter`'s loop: price fields go through
`_price_to_float` (an unparsable price becomes `None`), the volume field
through integer degrouping, everything else is copied.  A non-string value in
a converted field faults in Python (`re.search` / `.replace` on a non-string);
that fault is embedded as an error. -/
def convertEntry (keys : List String) (e : String × OvVal) : Except PyErr (String × OvVal) :=
  if keys.contains e.1 && priceKeys.contains e.1 then
    match e.2 with
    | .s str =>
        .ok (e.1, match priceToFloat str with
          | some q => .q q
          | Option.none => .none)
    | _ => .error .typeError
  else if keys.contains e.1 && e.1 == "volume" then
    match e.2 with
    | .s str => (pyIntOfString str).map (fun n => (e.1, .i n))
    | _ => .error .attributeError
  else .ok e

/-- `Market._overview_type_converter`.  The argument may be Python `None`
(the batch operations pass a failed lookup straight in): the `keys_to_convert`
validation runs first, then `None.items()` faults with `AttributeError`. -/
def overviewTypeConverter (overview : Option Overview) (keysToConvert : Option (List String)) :
    Except PyErr Overview :=
  let keys := keysToConvert.getD validConvKeys
  if keys.any (fun k => !validConvKeys.contains k) then .error .valueError
  else
    match overview with
    | Option.none => .error .attributeError
    | some ov => ov.mapM (convertEntry keys)

/-- The string carried by a `PyVal.str` (unreachable default behind the `str`
type check). -/
def pyStr : PyVal → String
  | .str s => s
  | _ => ""

/-- The strings carried by a `PyVal.list` of strings (unreachable default
behind the `list[str]` type check). -/
def pyStrList : PyVal → List String
  | .list xs => xs.map pyStr
  | _ => []

/-- The annotation `Union[SteamCurrency, SteamLegacyCurrency, int, str]`. -/
def currencyAnn : PyType := .unionT (.unionT (.unionT .curT .legacyT) .intT) .strT

/-- The annotation `Union[AppID, int]`.  `AppID` is an `IntEnum` defined in
`enums.py` (not among the verified sources); its members are instances of
`int`, so the union's runtime meaning is the `int` check. -/
def appIdScalarAnn : PyType := .intT

/-- The annotation `Union[AppID, int, list[Union[AppID, int]]]`. -/
def appIdListAnn : PyType := .unionT .intT (.listT .intT)

/-- The annotation `list[str]`. -/
def namesAnn : PyType := .listT .strT

/-- The annotation `dict[Union[AppID, int], list[str]]`. -/
def itemsDictAnn : PyType := .dictT .intT (.listT .strT)

/-- The `@typechecked` wrapper's treatment of the optional `currency`
argument: validated only when the caller supplied it; an omitted argument is
not in `args`/`kwargs` and is never checked. -/
def tcheckCurrencyOpt : Option PyVal → Bool
  | some v => typecheckValue v currencyAnn
  | none => true

/-- `Market.get_overview` behind its `@typechecked @sanitized` decorators.
`@typechecked` is the outer decorator, so the raw arguments are validated
first; sanitization follows; the body then issues one request (with
`currency or self.currency`) and optionally converts the result. -/
def getOverview (selfCur : SteamCurrency) (req : ReqFun) (appIdRaw nameRaw : PyVal)
    (typeConv : Bool) (currencyRaw : Option PyVal) : Except PyErr (Option Overview) :=
  if !(typecheckValue appIdRaw appIdScalarAnn && typecheckValue nameRaw .strT &&
       tcheckCurrencyOpt currencyRaw) then .error .typeError
  else
    match sanitizeCurrencyOpt currencyRaw with
    | .error e => .error e
    | .ok curOpt =>
      let appId := sanitizeAppId appIdRaw
      let name := sanitizeMarketHashName nameRaw
      let curUsed : Int := (curOpt.map pyToInt).getD selfCur.1
      let data := req (pyToInt appId) (pyStr name) curUsed
      if typeConv then (overviewTypeConverter data Option.none).map some else .ok data

/-- `Market.get_overviews` behind its decorators: a scalar app id is
broadcast to the length of the name list, mismatched list lengths raise
`IndexError`, and each (name, id) pair issues one non-raising request whose
result is stored under the name — converted first when `type_conversion` is
set (so a failed lookup reaches `_overview_type_converter` as `None`).  The
Python result dict is embedded as the association list in iteration
order. -/
def getOverviews (selfCur : SteamCurrency) (req : ReqFun) (appIdRaw namesRaw : PyVal)
    (typeConv : Bool) (currencyRaw : Option PyVal) :
    Except PyErr (List (String × Option Overview)) :=
  if !(typecheckValue appIdRaw appIdListAnn && typecheckValue namesRaw namesAnn &&
       tcheckCurrencyOpt currencyRaw) then .error .typeError
  else
    match sanitizeCurrencyOpt currencyRaw with
    | .error e => .error e
    | .ok curOpt =>
      let appId := sanitizeAppId appIdRaw
      let names := pyStrList (sanitizeMarketHashNames namesRaw)
      let curUsed : Int := (curOpt.map pyToInt).getD selfCur.1
      let ids : List Int :=
        match appId with
        | .list xs => xs.map pyToInt
        | v => List.replicate names.length (pyToInt v)
      if names.length != ids.length then .error .indexError
      else
        (names.zip ids).mapM (fun p =>
          let result := req p.2 p.1 curUsed
          if typeConv then
            (overviewTypeConverter result Option.none).map (fun ov => (p.1, some ov))
          else .ok (p.1, result))

/-- `Market.get_overviews_from_dict` behind its decorators.  Its parameter is
named `items_dict`, which has no entry in `_SANITIZE_FUNCS` (the table key is
`market_items_dict`), so no sanitizer runs on it: the app-id keys and the
item names inside the dictionary are used exactly as supplied. -/
def getOverviewsFromDict (selfCur : SteamCurrency) (req : ReqFun) (itemsDictRaw : PyVal)
    (typeConv : Bool) (currencyRaw : Option PyVal) :
    Except PyErr (List (String × Option Overview)) :=
  if !(typecheckValue itemsDictRaw itemsDictAnn && tcheckCurrencyOpt currencyRaw) then
    .error .typeError
  else
    match sanitizeCurrencyOpt currencyRaw with
    | .error e => .error e
    | .ok curOpt =>
      let curUsed : Int := (curOpt.map pyToInt).getD selfCur.1
      match itemsDictRaw with
      | .dict entries =>
        (entries.mapM (fun e =>
          (pyStrList e.2).mapM (fun nm =>
            let overview := req (pyToInt e.1) nm curUsed
            if typeConv then
              (overviewTypeConverter overview Option.none).map (fun ov => (nm, some ov))
            else .ok (nm, overview)))).map List.flatten
      | _ => .error .typeError

/-- `Market._get_price` (undecorated): one request with
`currency or self.currency`; absent item or absent field yields `None`;
otherwise the field, parsed by `_price_to_float` when `type_conversion` is
set.  The membership test `price_type not in item` compares the key against
the overview's string keys, so a non-string key (such as the tuple produced
by the price-type sanitizer) is never present. -/
def getPriceHelper (selfCur : SteamCurrency) (req : ReqFun) (appId : PyVal) (name : String)
    (priceType : PyVal) (typeConv : Bool) (currency : Option PyVal) :
    Except PyErr (Option OvVal) :=
  let curUsed : Int := (currency.map pyToInt).getD selfCur.1
  match req (pyToInt appId) name curUsed with
  | Option.none => .ok Option.none
  | some item =>
    match priceType with
    | .str s =>
      match ovLookup item s with
      | Option.none => .ok Option.none
      | some v =>
        if typeConv then
          match v with
          | .s str => .ok ((priceToFloat str).map OvVal.q)
          | _ => .error .typeError
        else .ok (some v)
    | _ => .ok Option.none

/-- `Market.get_price` behind its decorators: the raw arguments are type
validated (`price_type` against `str`), then sanitized (`price_type` through
`_sanitize_price_type_value`, becoming a tuple), and `_get_price` is called
with the sanitized values and the possibly-omitted currency. -/
def getPrice (selfCur : SteamCurrency) (req : ReqFun) (appIdRaw nameRaw priceTypeRaw : PyVal)
    (typeConv : Bool) (currencyRaw : Option PyVal) : Except PyErr (Option OvVal) :=
  if !(typecheckValue appIdRaw appIdScalarAnn && typecheckValue nameRaw .strT &&
       typecheckValue priceTypeRaw .strT && tcheckCurrencyOpt currencyRaw) then
    .error .typeError
  else
    match sanitizePriceType priceTypeRaw with
    | .error e => .error e
    | .ok priceType =>
      match sanitizeCurrencyOpt currencyRaw with
      | .error e => .error e
      | .ok curOpt =>
        getPriceHelper selfCur req (sanitizeAppId appIdRaw)
          (pyStr (sanitizeMarketHashName nameRaw)) priceType typeConv curOpt

/-- The decorator composition as the source has it:
`@typechecked` outside `@sanitized`, so the raw argument is validated first
and sanitized afterwards. -/
def typecheckThenSanitize (ann : PyType) (san : PyVal → Except PyErr PyVal) (v : PyVal) :
    Except PyErr PyVal :=
  if typecheckValue v ann then san v else .error .typeError

/-- Modelled from the spec's words (the refinement target, not the source):
"sanitization runs first (coercing loosely-typed input into canonical
types), then type validation runs against the now-canonical values". -/
def sanitizeThenTypecheck (ann : PyType) (san : PyVal → Except PyErr PyVal) (v : PyVal) :
    Except PyErr PyVal :=
  match san v with
  | .ok w => if typecheckValue w ann then .ok w else .error .typeError
  | .error e => .error e

/-! ### The grammar of well-formed price strings

The spec's shape "one-to-three leading digits, then zero-or-more groups of
exactly three digits each separated by a single `.` or `,`, then optionally a
final `.` or `,` followed by exactly two digits" is described by a leading
digit list, a list of (separator, three digits) groups, and an optional
(separator, two digits) decimal group. -/

/-- The four characters of one thousands group. -/
def renderGroup (g : Char × Char × Char × Char) : List Char :=
  [g.1, g.2.1, g.2.2.1, g.2.2.2]

/-- The rendered thousands groups. -/
def renderGroups (gs : List (Char × Char × Char × Char)) : List Char :=
  (gs.map renderGroup).flatten

/-- The digits of the thousands groups, separators dropped. -/
def groupDigits (gs : List (Char × Char × Char × Char)) : List Char :=
  (gs.map (fun g => [g.2.1, g.2.2.1, g.2.2.2])).flatten

/-- The rendered decimal group. -/
def renderDec : Option (Char × Char × Char) → List Char
  | some (s, a, b) => [s, a, b]
  | none => []

/-- The cents capture the decimal group yields. -/
def decExpected : Option (Char × Char × Char) → Option (Char × Char)
  | some (_, a, b) => some (a, b)
  | none => none

/-- A full well-formed price string. -/
def renderPriceShape (lead : List Char) (gs : List (Char × Char × Char × Char))
    (dec : Option (Char × Char × Char)) : String :=
  String.mk (lead ++ renderGroups gs ++ renderDec dec)

/-- `f"{num_str}.{decimal_part}"`: the parser's own canonical serialization
of a value with the given integer digits and two cents digits. -/
def canonicalPrice (intDigits : List Char) (a b : Char) : String :=
  String.mk (intDigits ++ '.' :: [a, b])

/-- A well-formed leading digit group: one to three digits. -/
abbrev GoodLead (lead : List Char) : Prop :=
  lead ≠ [] ∧ lead.length ≤ 3 ∧ ∀ c ∈ lead, c.isDigit = true

/-- A well-formed thousands group: a separator and three digits. -/
abbrev GoodGroup (g : Char × Char × Char × Char) : Prop :=
  isSepChar g.1 = true ∧ g.2.1.isDigit = true ∧ g.2.2.1.isDigit = true ∧
    g.2.2.2.isDigit = true

/-- A well-formed decimal group: a separator and two digits, when present. -/
abbrev GoodDec : Option (Char × Char × Char) → Prop
  | some (s, a, b) => isSepChar s = true ∧ a.isDigit = true ∧ b.isDigit = true
  | none => True

/-! ### Concrete fixtures used by the closed theorems -/

/-- `SteamCurrency.USD`, the facade's default currency. -/
def usdCurrency : SteamCurrency := ⟨1, by decide⟩

/-- `SteamCurrency.SEK`: an active-enum member whose numeric code 33 is also
in the legacy table. -/
def sekCurrencyMember : SteamCurrency := ⟨33, by decide⟩

/-- `SteamLegacyCurrency.SEK`. -/
def sekLegacyMember : SteamLegacyCurrency := ⟨33, by decide⟩

/-- A collaborator knowing exactly one item, with a populated overview. -/
def reqKnown : ReqFun := fun _ name _ =>
  if name == "Known Item" then
    some [("success", .b true), ("lowest_price", .s "$0.63")]
  else none

/-- A collaborator echoing the item name it was asked for. -/
def reqEcho : ReqFun := fun _ name _ => some [("echo", .s name)]

/-! ## Helper lemmas about the price parser -/

theorem isSepChar_eq_false_of_isDigit {c : Char} (h : c.isDigit = true) :
    isSepChar c = false := by
  unfold isSepChar
  rw [Bool.or_eq_false_iff]
  constructor <;> rw [beq_eq_false_iff_ne] <;> rintro rfl <;> exact absurd h (by decide)

theorem isDigit_eq_false_of_isSepChar {c : Char} (h : isSepChar c = true) :
    c.isDigit = false := by
  unfold isSepChar at h
  rw [Bool.or_eq_true] at h
  rcases h with h | h <;> rw [beq_iff_eq] at h <;> subst h <;> decide

theorem takeLeadingDigits_append (l r : List Char) (hl : ∀ c ∈ l, c.isDigit = true)
    (hr : ∀ c, r.head? = some c → c.isDigit = false) :
    takeLeadingDigits (l ++ r) = (l, r) := by
  induction l with
  | nil =>
    simp only [List.nil_append]
    cases r with
    | nil => rfl
    | cons c cs =>
      have hc : c.isDigit = false := hr c rfl
      simp [takeLeadingDigits, hc]
  | cons c l ih =>
    have hc : c.isDigit = true := hl c (by simp)
    have ih' := ih (fun x hx => hl x (by simp [hx]))
    simp [takeLeadingDigits, hc, ih']

theorem starLoop_renderDec (dec : Option (Char × Char × Char)) :
    starLoop (renderDec dec) = ([], renderDec dec) := by
  cases dec with
  | none => rfl
  | some s => obtain ⟨s, a, b⟩ := s; rfl

theorem starLoop_render (gs : List (Char × Char × Char × Char)) (rest : List Char)
    (hg : ∀ g ∈ gs, GoodGroup g) (hrest : starLoop rest = ([], rest)) :
    starLoop (renderGroups gs ++ rest) = (renderGroups gs, rest) := by
  induction gs with
  | nil =>
    simp only [renderGroups, List.map_nil, List.flatten_nil, List.nil_append]
    exact hrest
  | cons g gs ih =>
    obtain ⟨s, a, b, c⟩ := g
    have hgood : GoodGroup (s, a, b, c) := hg _ (by simp)
    obtain ⟨h1, h2, h3, h4⟩ := hgood
    have ih' := ih (fun x hx => hg x (by simp [hx]))
    simp only [renderGroups, List.map_cons, List.flatten_cons, renderGroup] at ih' ⊢
    simp [starLoop, h1, h2, h3, h4, ih']

theorem decGroup_renderDec (dec : Option (Char × Char × Char)) (hd : GoodDec dec) :
    decGroup (renderDec dec) = decExpected dec := by
  cases dec with
  | none => rfl
  | some s =>
    obtain ⟨s, a, b⟩ := s
    obtain ⟨h1, h2, h3⟩ := hd
    simp [renderDec, decGroup, decExpected, h1, h2, h3]

theorem renderMid_head_not_digit (gs : List (Char × Char × Char × Char))
    (dec : Option (Char × Char × Char)) (hg : ∀ g ∈ gs, GoodGroup g) (hd : GoodDec dec) :
    ∀ c, (renderGroups gs ++ renderDec dec).head? = some c → c.isDigit = false := by
  intro c hc
  cases gs with
  | cons g gs =>
    obtain ⟨s, a, b, d⟩ := g
    have hgood := hg _ (List.mem_cons_self _ _)
    simp only [renderGroups, List.map_cons, List.flatten_cons, renderGroup,
      List.cons_append, List.head?_cons, Option.some.injEq] at hc
    subst hc
    exact isDigit_eq_false_of_isSepChar hgood.1
  | nil =>
    cases dec with
    | none => simp [renderGroups, renderDec] at hc
    | some s =>
      obtain ⟨s, a, b⟩ := s
      simp only [renderGroups, List.map_nil, List.flatten_nil, renderDec,
        List.nil_append, List.head?_cons, Option.some.injEq] at hc
      subst hc
      exact isDigit_eq_false_of_isSepChar hd.1

theorem searchPrice_render (lead : List Char) (gs : List (Char × Char × Char × Char))
    (dec : Option (Char × Char × Char)) (hl : GoodLead lead) (hg : ∀ g ∈ gs, GoodGroup g)
    (hd : GoodDec dec) :
    searchPrice (lead ++ renderGroups gs ++ renderDec dec) =
      some (lead ++ renderGroups gs, decExpected dec) := by
  obtain ⟨hne, hlen, hdig⟩ := hl
  have htake : takeLeadingDigits (lead ++ (renderGroups gs ++ renderDec dec)) =
      (lead, renderGroups gs ++ renderDec dec) :=
    takeLeadingDigits_append _ _ hdig (renderMid_head_not_digit gs dec hg hd)
  have hstar : starLoop (renderGroups gs ++ renderDec dec) =
      (renderGroups gs, renderDec dec) :=
    starLoop_render gs _ hg (starLoop_renderDec dec)
  have hcore : matchCore (lead ++ (renderGroups gs ++ renderDec dec)) =
      (lead ++ renderGroups gs, decExpected dec) := by
    unfold matchCore
    rw [htake]
    simp only [List.take_of_length_le hlen, List.drop_eq_nil_of_le hlen, List.nil_append]
    rw [hstar]
    simp [decGroup_renderDec dec hd]
  cases lead with
  | nil => exact absurd rfl hne
  | cons c l =>
    have hc : c.isDigit = true := hdig c (by simp)
    calc searchPrice ((c :: l) ++ renderGroups gs ++ renderDec dec)
        = some (matchCore ((c :: l) ++ (renderGroups gs ++ renderDec dec))) := by
          simp [searchPrice, hc]
      _ = some ((c :: l) ++ renderGroups gs, decExpected dec) := by rw [hcore]

theorem filter_render (lead : List Char) (gs : List (Char × Char × Char × Char))
    (hdig : ∀ c ∈ lead, c.isDigit = true) (hg : ∀ g ∈ gs, GoodGroup g) :
    (lead ++ renderGroups gs).filter (fun c => !isSepChar c) = lead ++ groupDigits gs := by
  rw [List.filter_append]
  have hlead : lead.filter (fun c => !isSepChar c) = lead := by
    rw [List.filter_eq_self]
    intro a ha
    simp [isSepChar_eq_false_of_isDigit (hdig a ha)]
  have hgs : (renderGroups gs).filter (fun c => !isSepChar c) = groupDigits gs := by
    induction gs with
    | nil => rfl
    | cons g gs ih =>
      obtain ⟨s, a, b, c⟩ := g
      obtain ⟨h1, h2, h3, h4⟩ := hg _ (List.mem_cons_self _ _)
      have ih' := ih (fun x hx => hg x (by simp [hx]))
      simp only [renderGroups, groupDigits, List.map_cons, List.flatten_cons, renderGroup,
        List.cons_append, List.filter_cons] at ih' ⊢
      simp [h1, isSepChar_eq_false_of_isDigit h2, isSepChar_eq_false_of_isDigit h3,
        isSepChar_eq_false_of_isDigit h4, ih']
  rw [hlead, hgs]

theorem priceToFloat_render (lead : List Char) (gs : List (Char × Char × Char × Char))
    (dec : Option (Char × Char × Char)) (hl : GoodLead lead) (hg : ∀ g ∈ gs, GoodGroup g)
    (hd : GoodDec dec) :
    priceToFloat (renderPriceShape lead gs dec) =
      some ((natOfDigits (lead ++ groupDigits gs) : ℚ) +
        (priceCents (decExpected dec) : ℚ) / 100) := by
  have hdata : (renderPriceShape lead gs dec).data =
      lead ++ renderGroups gs ++ renderDec dec := rfl
  unfold priceToFloat priceParts
  rw [hdata, searchPrice_render lead gs dec hl hg hd]
  simp only [Option.map_some']
  rw [filter_render lead gs hl.2.2 hg]

theorem searchPrice_eq_none (l : List Char) (h : ∀ c ∈ l, c.isDigit = false) :
    searchPrice l = none := by
  induction l with
  | nil => rfl
  | cons c cs ih =>
    have hc := h c (by simp)
    simp [searchPrice, hc, ih (fun x hx => h x (by simp [hx]))]

/-! ## Helper lemmas about the currency tables -/

theorem legacy_pair_of_currency_pair :
    ∀ p ∈ steamCurrencyNames, p.2 ∈ legacyCurrencyCodes → p ∈ steamLegacyCurrencyNames := by
  decide

theorem legacyFromString_isSome_of_currency (s : String) (c : SteamCurrency)
    (h : currencyFromString s = some c) (hc : c.1 ∈ legacyCurrencyCodes) :
    (legacyFromString s).isSome = true := by
  unfold currencyFromString at h
  cases hfind : steamCurrencyNames.find? (fun p => p.1 == upperStr s) with
  | none => rw [hfind] at h; exact absurd h (by simp)
  | some p =>
    rw [hfind] at h
    dsimp only at h
    unfold currencyFromCode at h
    have hc2 : p.2 = c.1 := by
      by_cases hmem : p.2 ∈ steamCurrencyCodes
      · rw [dif_pos hmem] at h
        injection h with h'
        rw [← h']
      · rw [dif_neg hmem] at h
        exact absurd h (by simp)
    have hpmem := List.mem_of_find?_eq_some hfind
    have hkey := List.find?_some hfind
    have hleg : p ∈ steamLegacyCurrencyNames :=
      legacy_pair_of_currency_pair p hpmem (hc2 ▸ hc)
    have hsome : (steamLegacyCurrencyNames.find? (fun r => r.1 == upperStr s)).isSome :=
      List.find?_isSome.mpr ⟨p, hleg, hkey⟩
    unfold legacyFromString
    cases hfind2 : steamLegacyCurrencyNames.find? (fun r => r.1 == upperStr s) with
    | none => rw [hfind2] at hsome; simp at hsome
    | some q =>
      have hqmem := List.mem_of_find?_eq_some hfind2
      have hq2 : q.2 ∈ legacyCurrencyCodes := List.mem_map_of_mem Prod.snd hqmem
      dsimp only
      rw [dif_pos hq2]
      rfl

/-! ## The claims -/

/-- **C1, counterexample.**  The claim "a currency input whose resolved code
is in the legacy set fails with `LegacyCurrencyError` in any accepted input
shape, including a currency enum member" is false on the code: the
`SteamCurrency` member with code 33 (SEK) resolves to a legacy code, yet
`_sanitize_currency_value` accepts it unchanged — the legacy test on the
enum-member branch is an `isinstance` check against the `LegacyCurrency`
class, which a `SteamCurrency` member never satisfies. -/
theorem c1_currency_enum_member_counterexample :
    sanitizeCurrencyValue (.cur sekCurrencyMember) = .ok (.cur sekCurrencyMember) ∧
      sekCurrencyMember.1 ∈ legacyCurrencyCodes :=
  ⟨rfl, by decide⟩

/-- **C1, amended.**  For the legacy-enum-member, integer-code and
string-name shapes, an input whose resolved numeric code is in the legacy
set fails with `LegacyCurrencyError` (never `InvalidCurrencyError`); a
`SteamCurrency` enum member with a legacy-valued code, however, is accepted
unchanged (see the counterexample). -/
theorem c1_legacy_currency_rejected (c : SteamLegacyCurrency) (n : Int) (s : String) :
    sanitizeCurrencyValue (.legacy c) = .error .legacyCurrencyError ∧
      (n ∈ legacyCurrencyCodes →
        sanitizeCurrencyValue (.int n) = .error .legacyCurrencyError) ∧
      (∀ k, resolveStringCurrencyCode s = some k → k ∈ legacyCurrencyCodes →
        sanitizeCurrencyValue (.str s) = .error .legacyCurrencyError) := by
  refine ⟨rfl, fun h => by simp [sanitizeCurrencyValue, if_pos h], ?_⟩
  intro k hres hk
  unfold resolveStringCurrencyCode at hres
  cases hleg : legacyFromString s with
  | some q => simp [sanitizeCurrencyValue, hleg]
  | none =>
    rw [hleg] at hres
    simp only [Option.map_eq_some'] at hres
    obtain ⟨c', hc', hval⟩ := hres
    have := legacyFromString_isSome_of_currency s c' hc' (hval ▸ hk)
    rw [hleg] at this
    simp at this

/-- **C1, witness.**  The amended theorem applied to SEK in each shape:
the legacy member 33, the integer 33, and the name "SEK" all fail with
`LegacyCurrencyError`. -/
theorem c1_legacy_currency_rejected_witness :
    sanitizeCurrencyValue (.legacy sekLegacyMember) = .error .legacyCurrencyError ∧
      sanitizeCurrencyValue (.int 33) = .error .legacyCurrencyError ∧
      sanitizeCurrencyValue (.str "SEK") = .error .legacyCurrencyError :=
  ⟨(c1_legacy_currency_rejected sekLegacyMember 33 "SEK").1,
    (c1_legacy_currency_rejected sekLegacyMember 33 "SEK").2.1 (by decide),
    (c1_legacy_currency_rejected sekLegacyMember 33 "SEK").2.2 33 (by rfl) (by decide)⟩

/-- **C8.**  A currency input of integer or string shape matching no
currency-table entry and no legacy-table entry fails with
`InvalidCurrencyError` and nothing else. -/
theorem c8_unknown_currency_invalid (n : Int) (s : String) :
    (n ∉ legacyCurrencyCodes → n ∉ steamCurrencyCodes →
      sanitizeCurrencyValue (.int n) = .error .invalidCurrencyError) ∧
    ((legacyFromString s).isSome = false → currencyFromString s = none →
      sanitizeCurrencyValue (.str s) = .error .invalidCurrencyError) := by
  constructor
  · intro h1 h2
    simp [sanitizeCurrencyValue, if_neg h1, currencyFromCode, dif_neg h2]
  · intro h1 h2
    simp [sanitizeCurrencyValue, h1, h2]

/-- **C8, witness.**  The integer 999 and the name "XXX" match neither
table and fail with `InvalidCurrencyError`. -/
theorem c8_unknown_currency_invalid_witness :
    sanitizeCurrencyValue (.int 999) = .error .invalidCurrencyError ∧
      sanitizeCurrencyValue (.str "XXX") = .error .invalidCurrencyError :=
  ⟨(c8_unknown_currency_invalid 999 "XXX").1 (by decide) (by decide),
    (c8_unknown_currency_invalid 999 "XXX").2 (by decide) (by decide)⟩

/-- **C2, counterexample.**  The claim "the type validator checks the
already-canonical (sanitized) value" is false on the code: on `get_price`'s
`price_type` argument, the input `"lowest_price"` is accepted by the
decorator pipeline in the source's order (validate the raw string against
`str`, then sanitize into a tuple) even though its canonical (sanitized)
value, the tuple, fails the declared `str` validation — under the claimed
order the same call would fail with a type error. -/
theorem c2_order_counterexample :
    typecheckThenSanitize .strT sanitizePriceType (.str "lowest_price") =
        .ok (.tuple [.str "lowest_price"]) ∧
      typecheckValue (.tuple [.str "lowest_price"]) .strT = false ∧
      sanitizeThenTypecheck .strT sanitizePriceType (.str "lowest_price") =
        .error .typeError :=
  ⟨rfl, rfl, rfl⟩

/-- **C2, amended.**  Type validation runs first, on the raw arguments, and
sanitization runs second; loosely-typed currency inputs (a plain integer or
string) still pass validation, because the declared annotation is a union
containing the loose shapes `int` and `str`, after which the sanitizer
coerces them — so the facade's outcome on such inputs is exactly the
sanitizer's outcome. -/
theorem c2_typecheck_before_sanitize (selfCur : SteamCurrency) (req : ReqFun) (i n : Int)
    (nm s : String) :
    typecheckValue (.int n) currencyAnn = true ∧
      typecheckValue (.str s) currencyAnn = true ∧
      getOverview selfCur req (.int i) (.str nm) false (some (.int n)) =
        (match sanitizeCurrencyValue (.int n) with
         | .ok v => .ok (req i (replaceSlash nm) (pyToInt v))
         | .error e => .error e) ∧
      getOverview selfCur req (.int i) (.str nm) false (some (.str s)) =
        (match sanitizeCurrencyValue (.str s) with
         | .ok v => .ok (req i (replaceSlash nm) (pyToInt v))
         | .error e => .error e) := by
  have t1 : typecheckValue (.int i) appIdScalarAnn = true := rfl
  have t2 : typecheckValue (.str nm) PyType.strT = true := rfl
  have t3 : tcheckCurrencyOpt (some (.int n)) = true := rfl
  have t4 : tcheckCurrencyOpt (some (.str s)) = true := rfl
  refine ⟨rfl, rfl, ?_, ?_⟩
  · cases h : sanitizeCurrencyValue (.int n) with
    | ok v =>
      simp [getOverview, sanitizeCurrencyOpt, h, t1, t2, t3, Except.map, sanitizeAppId,
        sanitizeMarketHashName, pyStr, pyToInt]
    | error e =>
      simp [getOverview, sanitizeCurrencyOpt, h, t1, t2, t3, Except.map]
  · cases h : sanitizeCurrencyValue (.str s) with
    | ok v =>
      simp [getOverview, sanitizeCurrencyOpt, h, t1, t2, t4, Except.map, sanitizeAppId,
        sanitizeMarketHashName, pyStr, pyToInt]
    | error e =>
      simp [getOverview, sanitizeCurrencyOpt, h, t1, t2, t4, Except.map]

/-- **C4.**  Every price string of the well-formed shape — one to three
leading digits, zero or more separator-plus-three-digit groups, optionally a
final separator-plus-two-digit group — parses to the number whose integer
part is the concatenation of all leading digit groups (whatever each
separator character was) and whose cents are the final two-digit group, or
zero cents when no two-digit group is present. -/
theorem c4_price_shape_parsed (lead : List Char) (gs : List (Char × Char × Char × Char))
    (dec : Option (Char × Char × Char)) (hl : GoodLead lead)
    (hg : ∀ g ∈ gs, GoodGroup g) (hd : GoodDec dec) :
    priceToFloat (renderPriceShape lead gs dec) =
      some ((natOfDigits (lead ++ groupDigits gs) : ℚ) +
        (priceCents (decExpected dec) : ℚ) / 100) :=
  priceToFloat_render lead gs dec hl hg hd

/-- **C4, witness.**  `"1.234,56"` and `"1,234.56"` both parse to `1234.56`
and `"1,234"` parses to `1234.00`. -/
theorem c4_price_shape_parsed_witness :
    priceToFloat "1.234,56" = some ((1234 : ℚ) + 56 / 100) ∧
      priceToFloat "1,234.56" = some ((1234 : ℚ) + 56 / 100) ∧
      priceToFloat "1,234" = some ((1234 : ℚ) + 0 / 100) := by
  have h1 := c4_price_shape_parsed ['1'] [('.', '2', '3', '4')] (some (',', '5', '6'))
    (by decide) (by decide) (by decide)
  have h2 := c4_price_shape_parsed ['1'] [(',', '2', '3', '4')] (some ('.', '5', '6'))
    (by decide) (by decide) (by decide)
  have h3 := c4_price_shape_parsed ['1'] [(',', '2', '3', '4')] none
    (by decide) (by decide) (by decide)
  have e1 : renderPriceShape ['1'] [('.', '2', '3', '4')] (some (',', '5', '6')) =
      "1.234,56" := by decide
  have e2 : renderPriceShape ['1'] [(',', '2', '3', '4')] (some ('.', '5', '6')) =
      "1,234.56" := by decide
  have e3 : renderPriceShape ['1'] [(',', '2', '3', '4')] none = "1,234" := by decide
  have v1 : natOfDigits (['1'] ++ groupDigits [('.', '2', '3', '4')]) = 1234 := by decide
  have v2 : natOfDigits (['1'] ++ groupDigits [(',', '2', '3', '4')]) = 1234 := by decide
  have c1 : priceCents (decExpected (some ((',', '5', '6') : Char × Char × Char))) = 56 := by
    decide
  have c2 : priceCents (decExpected (some (('.', '5', '6') : Char × Char × Char))) = 56 := by
    decide
  have c3 : priceCents (decExpected (none : Option (Char × Char × Char))) = 0 := by decide
  rw [e1, v1, c1] at h1
  rw [e2, v2, c2] at h2
  rw [e3, v2, c3] at h3
  exact ⟨h1, h2, h3⟩

/-- **C6, counterexample.**  The claim "parsing `"1234.56"` yields `1234.56`"
is false on the code: the regex only accepts one to three leading digits
before a separator group, so the match stops at `"123"` and the parse
result is `123.00`. -/
theorem c6_reparse_counterexample :
    priceToFloat "1234.56" = some ((123 : ℚ) + 0 / 100) ∧
      priceToFloat "1234.56" ≠ some (1234.56 : ℚ) := by
  have hp : priceParts "1234.56" = some (['1', '2', '3'], none) := by decide
  have h1 : natOfDigits (List.filter (fun c => !isSepChar c) ['1', '2', '3']) = 123 := by
    decide
  constructor
  · simp [priceToFloat, hp, h1, priceCents]
  · simp only [priceToFloat, hp, Option.map_some', h1, priceCents, ne_eq,
      Option.some.injEq]
    norm_num

/-- **C6, amended.**  Price-string parsing is idempotent on its own canonical
output only when the integer part has at most three digits: a canonical
string `digits.dd` with one to three integer digits parses back to exactly
its integer digits and cents (so serializing that value again yields the
same string and the same value); for longer integer parts the canonical
output is not thousands-grouped and re-parsing truncates it (see the
counterexample, `"1234.56"` → `123.00`). -/
theorem c6_canonical_reparse (lead : List Char) (a b : Char) (hl : GoodLead lead)
    (ha : a.isDigit = true) (hb : b.isDigit = true) :
    priceToFloat (canonicalPrice lead a b) =
      some ((natOfDigits lead : ℚ) + (priceCents (some (a, b)) : ℚ) / 100) := by
  have h := priceToFloat_render lead [] (some ('.', a, b)) hl (by simp)
    ⟨by decide, ha, hb⟩
  have hs : renderPriceShape lead [] (some ('.', a, b)) = canonicalPrice lead a b := by
    simp [renderPriceShape, canonicalPrice, renderGroups, renderDec]
  rw [hs] at h
  simpa [groupDigits, decExpected] using h

/-- **C6, amended, witness.**  `"123.45"` parses to `123.45`, and the
canonical serialization of that value is the same string `"123.45"`, so
re-parsing yields the same value. -/
theorem c6_canonical_reparse_witness :
    priceToFloat "123.45" = some ((123 : ℚ) + 45 / 100) ∧
      canonicalPrice ['1', '2', '3'] '4' '5' = "123.45" := by
  have h := c6_canonical_reparse ['1', '2', '3'] '4' '5' (by decide) (by decide) (by decide)
  have e : canonicalPrice ['1', '2', '3'] '4' '5' = "123.45" := by decide
  have v : natOfDigits ['1', '2', '3'] = 123 := by decide
  have c : priceCents (some ('4', '5')) = 45 := by decide
  rw [e, v, c] at h
  exact ⟨h, e⟩

/-- **C7.**  A string containing no digit at all has no match for the price
regex, and the parser returns no value rather than an error. -/
theorem c7_no_digit_run_absent (s : String) (h : ∀ c ∈ s.data, c.isDigit = false) :
    priceToFloat s = none := by
  unfold priceToFloat priceParts
  rw [searchPrice_eq_none s.data h]
  rfl

/-- **C7, witness.**  `""` and `"N/A"` both yield no value. -/
theorem c7_no_digit_run_absent_witness :
    priceToFloat "" = none ∧ priceToFloat "N/A" = none :=
  ⟨c7_no_digit_run_absent "" (by decide), c7_no_digit_run_absent "N/A" (by decide)⟩

end SteamMarket

namespace SteamMarket

/-- **C3.**  The claim is right and the code is wrong: with the default
`type_conversion=True`, a batch item unknown to the remote side comes back
absent (the batch calls pass `raise_exception=False` precisely so that no
error is raised), but `get_overviews` and `get_overviews_from_dict` then feed
that absent result straight into `_overview_type_converter`, whose
`overview.items()` faults on `None` with `AttributeError` — so instead of a
complete mapping with a `None` entry, the whole call raises.  With
`type_conversion=False` the documented complete mapping is produced, which
pins the fault on the conversion step. -/
theorem c3_unknown_item_conversion_faults :
    getOverviews usdCurrency reqKnown (.int 730)
        (.list [.str "Known Item", .str "Unknown Item"]) true none =
      .error .attributeError ∧
    getOverviewsFromDict usdCurrency reqKnown
        (.dict [(.int 730, .list [.str "Known Item", .str "Unknown Item"])]) true none =
      .error .attributeError ∧
    getOverviews usdCurrency reqKnown (.int 730)
        (.list [.str "Known Item", .str "Unknown Item"]) false none =
      .ok [("Known Item", some [("success", .b true), ("lowest_price", .s "$0.63")]),
           ("Unknown Item", none)] :=
  ⟨rfl, rfl, rfl⟩

/-- **C5.**  The claim is right and the code is wrong: `get_price` sanitizes
`price_type` through `_sanitize_price_type_value`, which turns the valid
string `"lowest_price"` into the tuple `("lowest_price",)`; `_get_price`
then evaluates `price_type not in item` with that tuple as the key, which is
never present among the overview's string keys, so `get_price` returns
`None` even though the collaborator returned an overview containing the
requested field.  Called directly with the plain string key, the undecorated
`_get_price` returns the parsed field, which pins the fault on the
sanitizer's tuple. -/
theorem c5_get_price_always_none :
    getPrice usdCurrency reqKnown (.int 730) (.str "Known Item") (.str "lowest_price")
        true none = .ok none ∧
    getPriceHelper usdCurrency reqKnown (.int 730) "Known Item" (.str "lowest_price")
        true none = .ok (some (.q ((63 : ℚ) / 100))) := by
  have hp : priceParts "$0.63" = some (['0'], some ('6', '3')) := by decide
  have h1 : natOfDigits (List.filter (fun c => !isSepChar c) ['0']) = 0 := by decide
  have h2 : priceCents (some ('6', '3')) = 63 := by decide
  refine ⟨rfl, ?_⟩
  simp [getPriceHelper, reqKnown, ovLookup, priceToFloat, hp, h1, h2, pyToInt]

/-- **C9, counterexample.**  The claim "every item name ... including the
names inside the dictionary-keyed batch form" is false on the code:
`get_overviews_from_dict`'s parameter is named `items_dict`, which has no
entry in the sanitizer table (whose key is `market_items_dict`), so the
names inside the dictionary are used in requests exactly as supplied —
`"A/B"` is requested as `"A/B"`, not as the sanitized `"A-B"`. -/
theorem c9_dict_names_not_sanitized_counterexample :
    getOverviewsFromDict usdCurrency reqEcho (.dict [(.int 730, .list [.str "A/B"])])
        false none = .ok [("A/B", some [("echo", .s "A/B")])] ∧
      replaceSlash "A/B" = "A-B" :=
  ⟨rfl, by decide⟩

/-- **C9, amended.**  Slash-to-dash replacement is applied to a single
`market_hash_name` and to every element of a `market_hash_names` list before
the request is issued; the names inside the dictionary-keyed batch form are
not sanitized and are used as supplied.  In particular the spec's example
name sanitizes as stated wherever the sanitizer does run. -/
theorem c9_slash_replacement (selfCur : SteamCurrency) (req : ReqFun) (i : Int)
    (nm : String) :
    getOverview selfCur req (.int i) (.str nm) false none =
      .ok (req i (replaceSlash nm) selfCur.1) ∧
    getOverviews selfCur req (.int i) (.list [.str nm]) false none =
      .ok [(replaceSlash nm, req i (replaceSlash nm) selfCur.1)] ∧
    getOverviewsFromDict selfCur req (.dict [(.int i, .list [.str nm])]) false none =
      .ok [(nm, req i nm selfCur.1)] ∧
    replaceSlash "AK-47 | Redline (Field-Tested)/Variant" =
      "AK-47 | Redline (Field-Tested)-Variant" :=
  ⟨rfl, rfl, rfl, by decide⟩

/-- **C10.**  Explicitly passing `currency=None` fails with the type
validator's `TypeError` (`None` matches no branch of the declared currency
union, and the outer `@typechecked` checks every supplied argument), whereas
omitting the argument skips both decorators for it and the body's
`currency or self.currency` falls back to the instance default. -/
theorem c10_none_currency_rejected (selfCur : SteamCurrency) (req : ReqFun) (i : Int)
    (nm : String) (tc : Bool) :
    getOverview selfCur req (.int i) (.str nm) tc (some .none) = .error .typeError ∧
    getOverview selfCur req (.int i) (.str nm) false none =
      .ok (req i (replaceSlash nm) selfCur.1) :=
  ⟨rfl, rfl⟩

end SteamMarket
